import Mathlib

/-!
# Verification of the State Aggregator ingestion-and-classification pipeline

Shallow embedding of the core pipeline of the repository
`State-Aggregator-for-Municipal-Officials` (files `server.js` and the
scraper source `src/unnamed/part_000`):

* identity fingerprints (`generateItemId`, `calculateHash`, both SHA-256
  based, so SHA-256 is implemented executably over `Nat` below);
* seen-state change detection (`processBillHistory`);
* the two-stage relevance filter (`matchesMunicipalKeywords`,
  `checkRelevanceWithAI`) and whole-bill change detection (`hasChanges`);
* the run loops (`/api/collect` in `server.js`, `runScraper` in the
  scraper), with the external collaborators (fetcher, HTML parser,
  database, analysis engine) modelled as explicit oracle records, as the
  specification itself treats them as opaque collaborators.

Machine integers are `Nat` with explicit reduction modulo `2 ^ 32`.
All definitions are executable so concrete runs can be settled by `decide`.
-/

set_option maxRecDepth 10000

namespace StateAgg

/-! ## Bit-level primitives over `Nat` (32-bit words as `Nat % 2^32`) -/

/-- Bitwise XOR on 32-bit values. -/
def xorN (a b : Nat) : Nat := Nat.xor a b

/-- Bitwise AND on 32-bit values. -/
def landN (a b : Nat) : Nat := Nat.land a b

/-- Right shift. -/
def shrN (x n : Nat) : Nat := x / 2 ^ n

/-- Truncation to a 32-bit word. -/
def w32 (n : Nat) : Nat := n % 4294967296

/-- 32-bit right rotation (for `x < 2^32` and `0 < n < 32` the two parts
occupy disjoint bit ranges, so their sum equals their bitwise or). -/
def rotr32 (x n : Nat) : Nat := shrN x n + w32 (x * 2 ^ (32 - n))

/-! ## SHA-256 (FIPS 180-4), executable over byte lists -/

/-- The 64 SHA-256 round constants. -/
def shaK : List Nat :=
  [1116352408, 1899447441, 3049323471, 3921009573, 961987163, 1508970993,
   2453635748, 2870763221, 3624381080, 310598401, 607225278, 1426881987,
   1925078388, 2162078206, 2614888103, 3248222580, 3835390401, 4022224774,
   264347078, 604807628, 770255983, 1249150122, 1555081692, 1996064986,
   2554220882, 2821834349, 2952996808, 3210313671, 3336571891, 3584528711,
   113926993, 338241895, 666307205, 773529912, 1294757372, 1396182291,
   1695183700, 1986661051, 2177026350, 2456956037, 2730485921, 2820302411,
   3259730800, 3345764771, 3516065817, 3600352804, 4094571909, 275423344,
   430227734, 506948616, 659060556, 883997877, 958139571, 1322822218,
   1537002063, 1747873779, 1955562222, 2024104815, 2227730452, 2361852424,
   2428436474, 2756734187, 3204031479, 3329325298]

/-- The SHA-256 initial hash value. -/
def shaH0 : List Nat :=
  [1779033703, 3144134277, 1013904242, 2773480762,
   1359893119, 2600822924, 528734635, 1541459225]

/-- σ₀ message-schedule function. -/
def smallSigma0 (x : Nat) : Nat := xorN (xorN (rotr32 x 7) (rotr32 x 18)) (shrN x 3)

/-- σ₁ message-schedule function. -/
def smallSigma1 (x : Nat) : Nat := xorN (xorN (rotr32 x 17) (rotr32 x 19)) (shrN x 10)

/-- Σ₀ round function. -/
def bigSigma0 (x : Nat) : Nat := xorN (xorN (rotr32 x 2) (rotr32 x 13)) (rotr32 x 22)

/-- Σ₁ round function. -/
def bigSigma1 (x : Nat) : Nat := xorN (xorN (rotr32 x 6) (rotr32 x 11)) (rotr32 x 25)

/-- Ch(x,y,z) = (x ∧ y) ⊕ (¬x ∧ z); complement within 32 bits. -/
def chFun (x y z : Nat) : Nat := xorN (landN x y) (landN (xorN x 4294967295) z)

/-- Maj(x,y,z). -/
def majFun (x y z : Nat) : Nat := xorN (xorN (landN x y) (landN x z)) (landN y z)

/-- `k` big-endian bytes of `n`. -/
def toBytesBE (k n : Nat) : List Nat := (List.range k).map (fun i => n / 256 ^ (k - 1 - i) % 256)

/-- SHA-256 padding: `0x80`, zeros to 56 mod 64, then the 64-bit bit length. -/
def padMsg (bytes : List Nat) : List Nat :=
  bytes ++ [128] ++ List.replicate ((119 - bytes.length % 64) % 64) 0 ++ toBytesBE 8 (8 * bytes.length)

/-- Group bytes into big-endian 32-bit words. -/
def bytesToWords : List Nat → List Nat
  | a :: b :: c :: d :: rest => (((a * 256 + b) * 256 + c) * 256 + d) :: bytesToWords rest
  | _ => []

/-- One extension step of the message schedule. -/
def schedStep (w : List Nat) (_ : Nat) : List Nat :=
  let n := w.length
  w ++ [w32 (w.getD (n - 16) 0 + smallSigma0 (w.getD (n - 15) 0) + w.getD (n - 7) 0 + smallSigma1 (w.getD (n - 2) 0))]

/-- Extend a 16-word block to the 64-word schedule. -/
def schedule (block : List Nat) : List Nat := (List.range 48).foldl schedStep block

/-- One compression round on the 8-word working state. -/
def roundStep (ws : List Nat) (st : List Nat) (i : Nat) : List Nat :=
  match st with
  | [a, b, c, d, e, f, g, h] =>
    let t1 := w32 (h + bigSigma1 e + chFun e f g + shaK.getD i 0 + ws.getD i 0)
    let t2 := w32 (bigSigma0 a + majFun a b c)
    [w32 (t1 + t2), a, b, c, w32 (d + t1), e, f, g]
  | other => other

/-- Compress one 16-word block into the running hash value. -/
def compressBlock (hs : List Nat) (block : List Nat) : List Nat :=
  let ws := schedule block
  let fin := (List.range 64).foldl (roundStep ws) hs
  List.zipWith (fun x y => w32 (x + y)) hs fin

/-- SHA-256 digest of a byte list, as the 256-bit natural number whose
big-endian hex rendering is the digest string Node's `crypto` returns. -/
def sha256Nat (bytes : List Nat) : Nat :=
  let ws := bytesToWords (padMsg bytes)
  let blocks := (List.range (ws.length / 16)).map (fun i => (ws.drop (16 * i)).take 16)
  let hs := blocks.foldl compressBlock shaH0
  hs.foldl (fun acc w => acc * 4294967296 + w) 0

/-! ## String primitives mirroring the JavaScript ones used by the pipeline

The pipeline's fingerprints only ever see ASCII text (bill numbers, ISO
dates, legislative action phrases), so `toLowerCase`/`trim`/`includes`
are modelled on that fragment: `Char.toLower` agrees with JavaScript
`toLowerCase` on ASCII, and trimming handles the ASCII whitespace set. -/

/-- UTF-8 encoding of one character (what Node's `hash.update(string)` uses). -/
def charUtf8 (c : Char) : List Nat :=
  let n := c.toNat
  if n < 128 then [n]
  else if n < 2048 then [192 + n / 64, 128 + n % 64]
  else if n < 65536 then [224 + n / 4096, 128 + n / 64 % 64, 128 + n % 64]
  else [240 + n / 262144, 128 + n / 4096 % 64, 128 + n / 64 % 64, 128 + n % 64]

/-- UTF-8 bytes of a string. -/
def utf8Bytes (s : String) : List Nat := s.data.foldr (fun c acc => charUtf8 c ++ acc) []

/-- JavaScript `String.prototype.toLowerCase` on the ASCII fragment. -/
def jsToLower (s : String) : String := String.mk (s.data.map Char.toLower)

/-- ASCII whitespace, for `trim`. -/
def jsIsWs (c : Char) : Bool := c == ' ' || c == '\t' || c == '\n' || c == '\r'

/-- JavaScript `String.prototype.trim` on the ASCII fragment: strip
whitespace from both ends only. -/
def jsTrim (s : String) : String :=
  String.mk ((((s.data.dropWhile jsIsWs).reverse).dropWhile jsIsWs).reverse)

/-- Does the character list start with the given pattern? -/
def startsWithL : List Char → List Char → Bool
  | _, [] => true
  | [], _ :: _ => false
  | h :: hs, n :: ns => h == n && startsWithL hs ns

/-- Substring occurrence on character lists. -/
def hasSubL : List Char → List Char → Bool
  | [], ns => ns.isEmpty
  | h :: t, ns => startsWithL (h :: t) ns || hasSubL t ns

/-- JavaScript `String.prototype.includes`. -/
def strIncludes (hay needle : String) : Bool := hasSubL hay.data needle.data

/-! ## server.js — identity, fingerprints and trigger filter -/

/-- `BILL_ACTION_TRIGGERS` (server.js): trigger phrases marking significant
bill actions. -/
def BILL_ACTION_TRIGGERS : List String :=
  ["referred to",
   "committee recommends",
   "reported favorably",
   "public hearing",
   "passed to be engrossed",
   "enacted",
   "emergency preamble adopted",
   "returned",
   "governor signed"]

/-- `shouldAnalyzeAction` (server.js): case-insensitive trigger-phrase test. -/
def shouldAnalyzeAction (actionText : String) : Bool :=
  BILL_ACTION_TRIGGERS.any (fun trigger => strIncludes (jsToLower actionText) trigger)

/-- `generateItemId` (server.js): SHA-256 of the lower-cased, trimmed
`billNumber:actionDate:actionText` string, truncated to the first 16 hex
characters. The hex string is represented by its numeric value; taking the
first 16 of 64 hex characters is taking the top 64 of 256 bits. -/
def generateItemId (billNumber actionDate actionText : String) : Nat :=
  sha256Nat (utf8Bytes (jsTrim (jsToLower (billNumber ++ ":" ++ actionDate ++ ":" ++ actionText)))) / 2 ^ 192

/-- `calculateHash` (server.js): full SHA-256 of the text, unnormalized. -/
def calculateHash (text : String) : Nat := sha256Nat (utf8Bytes text)

/-! ## server.js — bill snapshots and seen-state change detection -/

/-- One row of a bill's action-history table. -/
structure HistoryRow where
  date : String
  branch : String
  action : String
deriving DecidableEq

/-- The `BillSnapshot` produced by `parseBillPage` (plus the `billText`
field the collect endpoint attaches before `processBillHistory`). -/
structure BillData where
  billNumber : String
  title : String
  currentStatus : String
  historyRows : List HistoryRow
  url : String
  billText : Option String
deriving DecidableEq

/-- A candidate item emitted by `processBillHistory` (the fields the
pipeline computes; constant metadata fields are omitted). -/
structure Item where
  item_id : Nat
  title : String
  url : String
  published_at : String
  raw_text : String
  raw_text_sha256 : Nat
  action_text : String
  action_date : String
  action_branch : String
deriving DecidableEq

/-- `storage.seenItems`: a map from `item_id` to the stored content hash
(the `last_seen` timestamp carries no decision-relevant information and is
omitted). -/
abbrev SeenMap : Type := List (Nat × Nat)

/-- `Map.prototype.get`. -/
def seenGet (m : SeenMap) (k : Nat) : Option Nat := (m.find? (fun p => p.1 == k)).map (fun p => p.2)

/-- `Map.prototype.set` (insert or overwrite). -/
def seenSet (m : SeenMap) (k v : Nat) : SeenMap := (k, v) :: m.filter (fun p => p.1 != k)

/-- The item record built for an accepted history row (server.js
`processBillHistory`, item literal). -/
def mkItem (billData : BillData) (row : HistoryRow) (itemId contentHash : Nat) : Item :=
  { item_id := itemId,
    title := billData.title,
    url := billData.url,
    published_at := row.date,
    raw_text := billData.billText.getD
      ("Bill: " ++ billData.title ++ "\nBill Number: " ++ billData.billNumber ++
       "\nDate: " ++ row.date ++ "\nBranch: " ++ row.branch ++ "\nAction: " ++ row.action ++
       "\nCurrent Status: " ++ billData.currentStatus),
    raw_text_sha256 := contentHash,
    action_text := row.action,
    action_date := row.date,
    action_branch := row.branch }

/-- The `itemId` fingerprint of one history row of a bill (the
`generateItemId` call site in `processBillHistory`). -/
def rowFp (billData : BillData) (row : HistoryRow) : Nat :=
  generateItemId billData.billNumber row.date row.action

/-- The content hash of one history row (the `calculateHash` call site in
`processBillHistory`). -/
def rowCh (row : HistoryRow) : Nat := calculateHash row.action

/-- The seen-state test of `processBillHistory`:
`seenItem && seenItem.sha256 === contentHash`. -/
def rowSeenMatches (seen : SeenMap) (itemId contentHash : Nat) : Bool :=
  match seenGet seen itemId with
  | some h => h == contentHash
  | none => false

/-- The loop body of `processBillHistory` (server.js), with the seen-state
passed explicitly: classify each history row against `storage.seenItems`,
emit the accepted rows as items and mark them seen immediately. -/
def processRows (billData : BillData) : List HistoryRow → SeenMap → List Item × SeenMap
  | [], seen => ([], seen)
  | row :: rest, seen =>
    if rowSeenMatches seen (rowFp billData row) (rowCh row) then
      processRows billData rest seen
    else if !shouldAnalyzeAction row.action then
      processRows billData rest seen
    else
      match processRows billData rest (seenSet seen (rowFp billData row) (rowCh row)) with
      | (items, seenOut) => (mkItem billData row (rowFp billData row) (rowCh row) :: items, seenOut)

/-- `processBillHistory` (server.js): returns the new candidate items and
the updated seen-state. -/
def processBillHistory (billData : BillData) (seen : SeenMap) : List Item × SeenMap :=
  processRows billData billData.historyRows seen

/-! ## scraper (src/unnamed/part_000) — stage-1 keyword filter -/

/-- `MUNICIPAL_KEYWORDS` (scraper): the fixed municipal keyword list. -/
def MUNICIPAL_KEYWORDS : List String :=
  ["municipality", "municipal", "municipalities",
   "city of", "town of", "village",
   "local government", "local aid", "unrestricted general government aid", "ugga",
   "home rule", "home rule petition",
   "chapter 90",
   "special act",
   "election", "elections", "voter", "voters", "voting",
   "ballot", "polling", "poll worker",
   "town meeting", "city council", "board of selectmen", "select board",
   "clerk", "town clerk", "city clerk", "election officer",
   "property tax", "real estate tax", "personal property tax",
   "tax levy", "levy limit", "proposition 2Â½", "proposition two and one half",
   "local option tax", "meals tax", "room occupancy",
   "treasurer", "collector", "assessor",
   "municipal finance", "municipal budget", "cherry sheet",
   "zoning", "zoning board", "zoning bylaw",
   "planning board", "conservation commission",
   "building inspector", "building code", "building permit",
   "affordable housing", "housing production", "40b",
   "wetlands", "open space",
   "police department", "fire department", "emergency services",
   "department of public works", "dpw", "highway department",
   "school district", "regional school", "education",
   "library", "public library",
   "water", "sewer", "wastewater",
   "solid waste", "recycling", "trash",
   "procurement", "public procurement", "chapter 30b",
   "prevailing wage", "public construction",
   "design-build", "construction manager at risk",
   "mcppo",
   "public records", "open meeting law",
   "ethics", "conflict of interest",
   "collective bargaining", "labor relations", "arbitration",
   "workers compensation", "unemployment",
   "opeb", "pension", "retirement"]

/-- `matchesMunicipalKeywords` (scraper): case-insensitive substring match
against the keyword list. -/
def matchesMunicipalKeywords (text : String) : Bool :=
  MUNICIPAL_KEYWORDS.any (fun keyword => strIncludes (jsToLower text) (jsToLower keyword))

/-! ## scraper — stage-2 semantic filter and change detection

The external collaborators (database, analysis engine, fetcher) are
modelled as oracle records, following the specification's interface
boundaries: a successful engine call that decodes yields a
`Stage2Resp`; a call that throws, times out, or returns undecodable
output is an `Except.error`. -/

/-- The decoded stage-2 engine response `{relevant, confidence, reason}`
(the `reason` field carries no decision-relevant information). -/
structure Stage2Resp where
  relevant : Bool
  confidence : String
deriving DecidableEq

/-- The database interface used by `hasChanges`: each query either
returns a result or throws. -/
structure DBIface where
  lookupBill : String → Except String (Option Nat)
  lookupHistory : Nat → String → String → Except String Bool

/-- The value `hasChanges` resolves with. In the JavaScript source the
`isNew: true` branches omit `hasUpdate`; since the callers only test its
truthiness, the absent field is modelled as `false`. -/
structure ChangeResult where
  isNew : Bool
  hasUpdate : Bool
  billId : Option Nat
deriving DecidableEq

/-- The per-row loop of `hasChanges`: look each snapshot row up in
persisted `bill_history` under `(billId, actionDate, actionText)`; the
first absent row reports an update. -/
def checkRows (db : DBIface) (billId : Nat) : List HistoryRow → Except String Bool
  | [] => .ok false
  | row :: rest =>
    match db.lookupHistory billId row.date row.action with
    | .error e => .error e
    | .ok found => if found then checkRows db billId rest else .ok true

/-- `hasChanges` (scraper): whole-bill change detection; any thrown
database error is swallowed and the bill is classified as new. -/
def hasChanges (db : DBIface) (billData : BillData) : ChangeResult :=
  match db.lookupBill billData.billNumber with
  | .error _ => ⟨true, false, none⟩
  | .ok none => ⟨true, false, none⟩
  | .ok (some billId) =>
    match checkRows db billId billData.historyRows with
    | .error _ => ⟨true, false, none⟩
    | .ok hasUpdate => ⟨false, hasUpdate, some billId⟩

/-- A concrete, error-free database built from pure table contents:
`bills` maps bill numbers to ids, `hist` is the set of persisted
`(bill_id, action_date, action_text)` rows. -/
def dbOf (bills : List (String × Nat)) (hist : List (Nat × String × String)) : DBIface :=
  { lookupBill := fun billNumber => .ok ((bills.find? (fun p => p.1 == billNumber)).map (fun p => p.2)),
    lookupHistory := fun billId date action => .ok (decide ((billId, date, action) ∈ hist)) }

/-- The oracle record for one scraper pass: fetcher, parser, database and
the two analysis-engine entry points. `fetchPage` returns `none` on 404 or
network failure (the source catches and returns `null`); `parsePage`,
`storeBill`, `analyze` and `storeBrief` may throw. -/
structure ScrEnv where
  fetchPage : String → Option String
  parsePage : String → Except String BillData
  db : DBIface
  stage2 : BillData → Except String Stage2Resp
  fetchText : String → Option String
  storeBill : BillData → Except String Nat
  analyze : BillData → Option String → Except String String
  storeBrief : Nat → Option String → String → Except String Unit

/-- `checkRelevanceWithAI` (scraper): pass only on a decoded response with
`relevant` true and `confidence` "medium" or "high"; if the engine call
itself fails, return `true` (fail open). -/
def checkRelevanceWithAI (env : ScrEnv) (billData : BillData) : Bool :=
  match env.stage2 billData with
  | .ok result => result.relevant && (result.confidence == "medium" || result.confidence == "high")
  | .error _ => true

/-- Observable effects of one scraper candidate's pipeline, in execution
order: the stage-1 keyword check, each analysis-engine call, and brief
creation. -/
inductive Ev where
  | kwCheck (text : String) (pass : Bool)
  | engineRelevance (billData : BillData)
  | engineAnalysis (billData : BillData) (billText : Option String)
  | briefCreated
deriving DecidableEq

/-- Is the event a call to the analysis engine? -/
def Ev.isEngineCall : Ev → Bool
  | .engineRelevance _ => true
  | .engineAnalysis _ _ => true
  | _ => false

/-- The per-candidate statistics deltas of `runScraper`'s loop body,
including the `{bill, error}` records pushed on failure. -/
structure StepStats where
  checked : Nat
  found : Nat
  passedKeywordFilter : Nat
  passedAIFilter : Nat
  billsUpdated : Nat
  briefsCreated : Nat
  errors : List (String × String)
deriving DecidableEq

/-- The body of `runScraper`'s per-candidate closure (scraper): fetch,
parse, stage-1 keyword gate, change gate, stage-2 semantic gate, then
full analysis and persistence; any throw is caught and recorded. Returns
the trace of observable effects and the statistics deltas. -/
def processOneBill (env : ScrEnv) (billNum : String) : List Ev × StepStats :=
  match env.fetchPage billNum with
  | none => ([], ⟨1, 0, 0, 0, 0, 0, []⟩)
  | some html =>
    match env.parsePage html with
    | .error e => ([], ⟨1, 1, 0, 0, 0, 0, [(billNum, e)]⟩)
    | .ok billData =>
      let textToCheck := jsToLower (billData.title ++ " " ++ billData.currentStatus)
      if !matchesMunicipalKeywords textToCheck then
        ([Ev.kwCheck textToCheck false], ⟨1, 1, 0, 0, 0, 0, []⟩)
      else
        let changeCheck := hasChanges env.db billData
        if !changeCheck.isNew && !changeCheck.hasUpdate then
          ([Ev.kwCheck textToCheck true], ⟨1, 1, 1, 0, 0, 0, []⟩)
        else if !checkRelevanceWithAI env billData then
          ([Ev.kwCheck textToCheck true, Ev.engineRelevance billData], ⟨1, 1, 1, 0, 0, 0, []⟩)
        else
          let billText := env.fetchText billNum
          match env.storeBill billData with
          | .error e =>
            ([Ev.kwCheck textToCheck true, Ev.engineRelevance billData],
             ⟨1, 1, 1, 1, 0, 0, [(billNum, e)]⟩)
          | .ok billId =>
            match env.analyze billData billText with
            | .error e =>
              ([Ev.kwCheck textToCheck true, Ev.engineRelevance billData,
                Ev.engineAnalysis billData billText],
               ⟨1, 1, 1, 1, 0, 0, [(billNum, e)]⟩)
            | .ok analysis =>
              match env.storeBrief billId billText analysis with
              | .error e =>
                ([Ev.kwCheck textToCheck true, Ev.engineRelevance billData,
                  Ev.engineAnalysis billData billText],
                 ⟨1, 1, 1, 1, 0, 0, [(billNum, e)]⟩)
              | .ok _ =>
                ([Ev.kwCheck textToCheck true, Ev.engineRelevance billData,
                  Ev.engineAnalysis billData billText, Ev.briefCreated],
                 ⟨1, 1, 1, 1, 1, 1, []⟩)

/-! ## server.js — the `/api/collect` run loop -/

/-- The structured error record pushed into `results.errors` (the log
entry's identifying message plus the caught error's message). -/
structure ErrRec where
  message : String
  errText : String
deriving DecidableEq

/-- The aggregate result of one `/api/collect` run. -/
structure CollectResults where
  success : Bool
  billsProcessed : Nat
  itemsIdentified : Nat
  briefsCreated : Nat
  errors : List ErrRec
deriving DecidableEq

/-- The oracle record for the collect endpoint: `fetchPage` and
`parsePage` may throw; `fetchText` catches its own failures and returns
`none`; `analyzeItem` is the per-item analysis-engine call. -/
structure SrvEnv where
  fetchPage : String → Except String String
  fetchText : String → Option String
  parsePage : String → Except String BillData
  analyzeItem : Item → Except String String

/-- The inner per-item loop of `/api/collect`: analyze each new item,
counting created briefs and recording per-item failures without aborting
the bill. -/
def analyzeItems (env : SrvEnv) : List Item → Nat × List ErrRec
  | [] => (0, [])
  | item :: rest =>
    match env.analyzeItem item, analyzeItems env rest with
    | .ok _, (briefs, errs) => (briefs + 1, errs)
    | .error e, (briefs, errs) =>
      (briefs, ⟨"Failed to analyze item: " ++ Nat.repr item.item_id, e⟩ :: errs)

/-- One iteration of the `/api/collect` bill loop: any throw while
processing the candidate is caught, recorded, and the loop continues. -/
def collectStep (env : SrvEnv) (acc : CollectResults × SeenMap) (billNumber : String) :
    CollectResults × SeenMap :=
  let res := acc.1
  let seen := acc.2
  match env.fetchPage billNumber with
  | .error e =>
    ({res with errors := res.errors ++ [⟨"Failed to process bill: " ++ billNumber, e⟩]}, seen)
  | .ok html =>
    let billText := env.fetchText billNumber
    match env.parsePage html with
    | .error e =>
      ({res with errors := res.errors ++ [⟨"Failed to process bill: " ++ billNumber, e⟩]}, seen)
    | .ok parsed =>
      match processBillHistory {parsed with billText := billText} seen with
      | (newItems, seenOut) =>
        match analyzeItems env newItems with
        | (briefs, itemErrs) =>
          ({res with
              billsProcessed := res.billsProcessed + 1,
              itemsIdentified := res.itemsIdentified + newItems.length,
              briefsCreated := res.briefsCreated + briefs,
              errors := res.errors ++ itemErrs},
           seenOut)

/-- The initial `results` object of `/api/collect`. -/
def collectInit : CollectResults := ⟨true, 0, 0, 0, []⟩

/-- `/api/collect` (server.js): process every candidate bill number in
order, then report `success = (errors.length == 0)`. -/
def collect (env : SrvEnv) (billNumbers : List String) (seen0 : SeenMap) :
    CollectResults × SeenMap :=
  let r := billNumbers.foldl (collectStep env) (collectInit, seen0)
  ({r.1 with success := r.1.errors.isEmpty}, r.2)

/-- Does the bill-level try block of `/api/collect` throw for this
candidate? (Exactly when the fetch or the parse throws; `fetchText`
catches its own errors and item-level failures are caught further in.) -/
def billFails (env : SrvEnv) (billNumber : String) : Bool :=
  match env.fetchPage billNumber with
  | .error _ => true
  | .ok html =>
    match env.parsePage html with
    | .error _ => true
    | .ok _ => false

/-! ## Normalizer history-row extraction (both variants)

The HTML/DOM walk is the fetch collaborator's side; what the two
`parseBillPage` implementations decide is which `<tr>` rows (given as
lists of cell texts) become history rows. -/

/-- History-row extraction of `parseBillPage` in server.js: a row with at
least three cells is kept only when both the trimmed date and the trimmed
action text are non-empty (`if (date && action)`). -/
def parseBillPageHistoryRows : List (List String) → List HistoryRow
  | [] => []
  | cells :: rest =>
    match cells with
    | c0 :: c1 :: c2 :: _ =>
      if !(jsTrim c0 == "") && !(jsTrim c2 == "") then
        ⟨jsTrim c0, jsTrim c1, jsTrim c2⟩ :: parseBillPageHistoryRows rest
      else
        parseBillPageHistoryRows rest
    | _ => parseBillPageHistoryRows rest

/-- History-row extraction of `parseBillPage` in the scraper
(src/unnamed/part_000): every row with at least three cells is kept,
with no emptiness check on date or action. -/
def scraperParseBillPageHistoryRows : List (List String) → List HistoryRow
  | [] => []
  | cells :: rest =>
    match cells with
    | c0 :: c1 :: c2 :: _ =>
      ⟨jsTrim c0, jsTrim c1, jsTrim c2⟩ :: scraperParseBillPageHistoryRows rest
    | _ => scraperParseBillPageHistoryRows rest

/-! ## Concrete inputs for witnesses and counterexamples -/

/-- A minimal bill snapshot with no history rows. -/
def bd0 : BillData := ⟨"H.1", "Unknown Title", "Status unknown", [], "u", none⟩

/-- A scraper oracle whose stage-2 engine behaves as given and whose other
collaborators are inert. -/
def scrEnvOf (s2 : Except String Stage2Resp) : ScrEnv :=
  { fetchPage := fun _ => none,
    parsePage := fun _ => .error "Could not extract bill number",
    db := dbOf [] [],
    stage2 := fun _ => s2,
    fetchText := fun _ => none,
    storeBill := fun _ => .error "db down",
    analyze := fun _ _ => .error "engine down",
    storeBrief := fun _ _ _ => .error "db down" }

/-- A snapshot whose single action row contains the trigger phrase
"referred to". -/
def c1bd : BillData :=
  ⟨"H.1", "An Act", "Status unknown", [⟨"2024-01-01", "House", "Referred to committee"⟩], "u", none⟩

/-- The same snapshot republished with the action text in upper case. -/
def c1bdCased : BillData :=
  ⟨"H.1", "An Act", "Status unknown", [⟨"2024-01-01", "House", "REFERRED TO COMMITTEE"⟩], "u", none⟩

/-- The seen-state after processing `c1bd` from an empty store. -/
def c1seen : SeenMap := (processBillHistory c1bd []).2

/-- A snapshot whose two rows share one `itemId` fingerprint (the action
texts differ only by a trailing space) but have different content hashes. -/
def c7bd : BillData :=
  ⟨"H.2", "An Act", "Status unknown",
   [⟨"2024-01-01", "House", "Enacted"⟩, ⟨"2024-01-01", "House", "Enacted "⟩], "u", none⟩

/-- The seen-state after processing `c7bd` from an empty store. -/
def c7seen : SeenMap := (processBillHistory c7bd []).2

/-- A one-row snapshot with a trigger action and a distinct fingerprint. -/
def w7bd : BillData :=
  ⟨"H.3", "An Act", "Status unknown", [⟨"2024-02-02", "House", "Enacted"⟩], "u", none⟩

/-- A one-row snapshot for the re-observation witness. -/
def w1bd : BillData :=
  ⟨"H.4", "An Act", "Status unknown", [⟨"2024-03-03", "House", "Enacted"⟩], "u", none⟩

/-- A seen-state already holding exactly `w1bd`'s row under its fingerprint. -/
def w1seen : SeenMap :=
  [(rowFp w1bd ⟨"2024-03-03", "House", "Enacted"⟩, rowCh ⟨"2024-03-03", "House", "Enacted"⟩)]

/-- A snapshot whose title matches the municipal keyword list. -/
def w4bd : BillData :=
  ⟨"H.5", "An Act relative to municipal finance", "Status unknown", [], "u", none⟩

/-- A scraper oracle that reaches stage 2 for `w4bd` and whose stage-2
engine call fails. -/
def w4env : ScrEnv :=
  { fetchPage := fun _ => some "html",
    parsePage := fun _ => .ok w4bd,
    db := dbOf [] [],
    stage2 := fun _ => .error "timeout",
    fetchText := fun _ => none,
    storeBill := fun _ => .ok 1,
    analyze := fun _ _ => .ok "analysis",
    storeBrief := fun _ _ _ => .ok () }

/-- A snapshot whose title and status contain no municipal keyword. -/
def w6bd : BillData :=
  ⟨"H.6", "An Act concerning interstellar xylophones", "Status unknown", [], "u", none⟩

/-- A scraper oracle that fetches and parses `w6bd` successfully; its
engine would accept anything, so only the keyword gate can reject. -/
def w6env : ScrEnv :=
  { fetchPage := fun _ => some "html",
    parsePage := fun _ => .ok w6bd,
    db := dbOf [] [],
    stage2 := fun _ => .ok ⟨true, "high"⟩,
    fetchText := fun _ => none,
    storeBill := fun _ => .ok 1,
    analyze := fun _ _ => .ok "analysis",
    storeBrief := fun _ _ _ => .ok () }

/-- A one-row snapshot for the change-detection witness. -/
def w5bd : BillData :=
  ⟨"H.1", "An Act", "Status unknown", [⟨"2024-01-01", "House", "Enacted"⟩], "u", none⟩

/-- A collect oracle for which bill "H.1" processes cleanly (with no
history rows) and every other bill number fails to fetch. -/
def w8env : SrvEnv :=
  { fetchPage := fun billNumber =>
      if billNumber == "H.1" then .ok "html" else .error "HTTP 500: Internal Server Error",
    fetchText := fun _ => none,
    parsePage := fun _ => .ok bd0,
    analyzeItem := fun _ => .ok "analysis" }

/-- A database whose every query throws. -/
def w10db : DBIface :=
  ⟨fun _ => .error "connection refused", fun _ _ _ => .error "connection refused"⟩

end StateAgg

namespace StateAgg

/-- FIPS 180-4 test vector: SHA-256("abc"). Validates the SHA-256
implementation the fingerprint functions are built on. -/
theorem sha256Nat_abc :
    sha256Nat [97, 98, 99] =
      84342368487090800366523834928142263660104883695016514377462985829716817089965 := by
  decide

/-! ## Seen-state map lemmas -/

/-- Reading back the key just written. -/
theorem seenGet_seenSet_self (m : SeenMap) (k v : Nat) :
    seenGet (seenSet m k v) k = some v := by
  simp [seenGet, seenSet]

/-- `find?` ignores entries removed by filtering out a different key. -/
theorem find?_filter_ne (m : SeenMap) (k k' : Nat) (h : k' ≠ k) :
    (m.filter (fun p => p.1 != k)).find? (fun p => p.1 == k')
      = m.find? (fun p => p.1 == k') := by
  have hkk : (k == k') = false := by
    simp only [beq_eq_false_iff_ne]
    exact fun hh => h hh.symm
  induction m with
  | nil => rfl
  | cons a t ih =>
    by_cases hak : a.1 = k
    · simp [List.filter_cons, List.find?_cons, hak, hkk, h, ih]
    · by_cases ha : a.1 = k'
      · simp [List.filter_cons, List.find?_cons, hak, ha, h]
      · simp [List.filter_cons, List.find?_cons, hak, ha, h, ih]

/-- Writing one key leaves every other key's lookup unchanged. -/
theorem seenGet_seenSet_ne (m : SeenMap) (k k' v : Nat) (h : k' ≠ k) :
    seenGet (seenSet m k v) k' = seenGet m k' := by
  have hne : (k == k') = false := by
    simp only [beq_eq_false_iff_ne]; exact fun hh => h hh.symm
  simp [seenGet, seenSet, List.find?_cons, hne, find?_filter_ne m k k' h]

/-! ## `processBillHistory` invariants -/

/-- Rows whose fingerprints avoid a key never touch that key's seen-state
entry. -/
theorem processRows_notouch (billData : BillData) (rows : List HistoryRow) (seen : SeenMap)
    (k : Nat) (hk : k ∉ rows.map (rowFp billData)) :
    seenGet (processRows billData rows seen).2 k = seenGet seen k := by
  induction rows generalizing seen with
  | nil => rfl
  | cons row rest ih =>
    simp only [List.map_cons, List.mem_cons, not_or] at hk
    obtain ⟨hk1, hk2⟩ := hk
    simp only [processRows]
    split
    · exact ih seen hk2
    · split
      · exact ih seen hk2
      · rcases hrec : processRows billData rest (seenSet seen (rowFp billData row) (rowCh row)) with
          ⟨items, seenOut⟩
        have h2 := ih (seenSet seen (rowFp billData row) (rowCh row)) hk2
        rw [hrec] at h2
        simp only at h2 ⊢
        rw [h2]
        exact seenGet_seenSet_ne seen (rowFp billData row) k (rowCh row) hk1

/-- A row set whose every row is either already seen with a matching hash
or trigger-free is processed to no candidates and an unchanged seen-state. -/
theorem processRows_settled (billData : BillData) (rows : List HistoryRow) (seen : SeenMap)
    (h : ∀ row ∈ rows, seenGet seen (rowFp billData row) = some (rowCh row)
          ∨ shouldAnalyzeAction row.action = false) :
    processRows billData rows seen = ([], seen) := by
  induction rows with
  | nil => rfl
  | cons row rest ih =>
    have hrest : ∀ r ∈ rest, seenGet seen (rowFp billData r) = some (rowCh r)
        ∨ shouldAnalyzeAction r.action = false :=
      fun r hr => h r (List.mem_cons_of_mem _ hr)
    rcases h row (List.mem_cons_self _ _) with hseen | htrig
    · have hm : rowSeenMatches seen (rowFp billData row) (rowCh row) = true := by
        simp [rowSeenMatches, hseen]
      simp only [processRows, hm, if_true]
      exact ih hrest
    · by_cases hm : rowSeenMatches seen (rowFp billData row) (rowCh row)
      · simp only [processRows, hm, if_true]
        exact ih hrest
      · simp only [processRows, hm, if_false, Bool.false_eq_true, htrig, Bool.not_false, if_true]
        exact ih hrest

/-- Every emitted candidate comes from one of the snapshot's rows, carries
that row's fingerprint and content hash, and matched a trigger phrase. -/
theorem processRows_emitted (billData : BillData) (rows : List HistoryRow) (seen : SeenMap) :
    ∀ it ∈ (processRows billData rows seen).1,
      ∃ row ∈ rows, it = mkItem billData row (rowFp billData row) (rowCh row)
        ∧ shouldAnalyzeAction row.action = true := by
  induction rows generalizing seen with
  | nil => intro it hit; simp [processRows] at hit
  | cons row rest ih =>
    intro it hit
    simp only [processRows] at hit
    split at hit
    · obtain ⟨r, hr, hp⟩ := ih seen it hit
      exact ⟨r, List.mem_cons_of_mem _ hr, hp⟩
    · split at hit
      · obtain ⟨r, hr, hp⟩ := ih seen it hit
        exact ⟨r, List.mem_cons_of_mem _ hr, hp⟩
      · rcases hrec : processRows billData rest (seenSet seen (rowFp billData row) (rowCh row)) with
          ⟨items, seenOut⟩
        rw [hrec] at hit
        simp only [List.mem_cons] at hit
        rcases hit with hit | hit
        · refine ⟨row, List.mem_cons_self _ _, hit, ?_⟩
          rename_i htrig
          simpa using htrig
        · have := ih (seenSet seen (rowFp billData row) (rowCh row)) it (by rw [hrec]; exact hit)
          obtain ⟨r, hr, hp⟩ := this
          exact ⟨r, List.mem_cons_of_mem _ hr, hp⟩

/-- With pairwise-distinct fingerprints, the final seen-state of a pass
records, for every trigger row, exactly that row's content hash. -/
theorem processRows_final (billData : BillData) (rows : List HistoryRow) (seen : SeenMap)
    (hnodup : (rows.map (rowFp billData)).Nodup) :
    ∀ row ∈ rows, seenGet (processRows billData rows seen).2 (rowFp billData row)
        = some (rowCh row)
      ∨ shouldAnalyzeAction row.action = false := by
  induction rows generalizing seen with
  | nil => intro r hr; simp at hr
  | cons row rest ih =>
    simp only [List.map_cons, List.nodup_cons] at hnodup
    obtain ⟨hnotin, hnodup'⟩ := hnodup
    intro r hr
    simp only [List.mem_cons] at hr
    simp only [processRows]
    rcases hr with rfl | hr
    · by_cases hm : rowSeenMatches seen (rowFp billData r) (rowCh r)
      · left
        simp only [hm, if_true]
        rw [processRows_notouch billData rest seen (rowFp billData r) hnotin]
        revert hm
        unfold rowSeenMatches
        cases hg : seenGet seen (rowFp billData r) with
        | none => intro hh; cases hh
        | some h0 => intro hh; simpa using hh
      · by_cases htrig : shouldAnalyzeAction r.action
        · left
          simp only [hm, if_false, Bool.false_eq_true, htrig, Bool.not_true,
            Bool.true_eq_false, if_false]
          rcases hrec : processRows billData rest (seenSet seen (rowFp billData r) (rowCh r)) with
            ⟨items, seenOut⟩
          have hnt := processRows_notouch billData rest
            (seenSet seen (rowFp billData r) (rowCh r)) (rowFp billData r) hnotin
          rw [hrec] at hnt
          simp only [hrec]
          rw [hnt]
          exact seenGet_seenSet_self seen (rowFp billData r) (rowCh r)
        · right
          simpa using htrig
    · split
      · exact ih seen hnodup' r hr
      · split
        · exact ih seen hnodup' r hr
        · rcases hrec : processRows billData rest (seenSet seen (rowFp billData row) (rowCh row)) with
            ⟨items, seenOut⟩
          have := ih (seenSet seen (rowFp billData row) (rowCh row)) hnodup' r hr
          rw [hrec] at this
          simpa using this

/-! ## String normalization lemmas -/

/-- String append is list append on the underlying characters. -/
theorem strData_append (a b : String) : (a ++ b).data = a.data ++ b.data := by
  cases a with | mk la => cases b with | mk lb => rfl

/-- Lower-casing distributes over string append. -/
theorem jsToLower_append (a b : String) : jsToLower (a ++ b) = jsToLower a ++ jsToLower b := by
  cases a with | mk la =>
  cases b with | mk lb =>
  show String.mk ((la ++ lb).map Char.toLower)
      = String.mk (la.map Char.toLower ++ lb.map Char.toLower)
  rw [List.map_append]

/-- Fingerprints agree whenever the action texts agree after
case-folding (the shared helper behind the C2 family). -/
theorem generateItemId_congr (billNumber actionDate t₁ t₂ : String)
    (h : jsToLower t₁ = jsToLower t₂) :
    generateItemId billNumber actionDate t₁ = generateItemId billNumber actionDate t₂ := by
  unfold generateItemId
  have e1 := jsToLower_append (billNumber ++ ":" ++ actionDate ++ ":") t₁
  have e2 := jsToLower_append (billNumber ++ ":" ++ actionDate ++ ":") t₂
  rw [e1, e2, h]

/-- String append is associative. -/
theorem strAppend_assoc (a b c : String) : a ++ b ++ c = a ++ (b ++ c) := by
  cases a with | mk la =>
  cases b with | mk lb =>
  cases c with | mk lc =>
  show String.mk (la ++ lb ++ lc) = String.mk (la ++ (lb ++ lc))
  rw [List.append_assoc]

/-- Lower-casing fixes the whitespace characters. -/
theorem toLower_ws (c : Char) (h : jsIsWs c = true) : Char.toLower c = c := by
  simp only [jsIsWs, Bool.or_eq_true, beq_iff_eq] at h
  rcases h with ((rfl | rfl) | rfl) | rfl <;> rfl

/-- Lower-casing fixes all-whitespace strings. -/
theorem jsToLower_ws (w : String) (h : ∀ c ∈ w.data, jsIsWs c = true) : jsToLower w = w := by
  cases w with | mk l =>
  show String.mk (l.map Char.toLower) = String.mk l
  congr 1
  induction l with
  | nil => rfl
  | cons c cs ih =>
    rw [List.map_cons, toLower_ws c (h c (List.mem_cons_self _ _)),
      ih (fun x hx => h x (List.mem_cons_of_mem _ hx))]

/-- Dropping while a predicate holds consumes an all-satisfying list. -/
theorem dropWhile_of_all (p : Char → Bool) (w : List Char) (h : ∀ c ∈ w, p c = true) :
    w.dropWhile p = [] := by
  induction w with
  | nil => rfl
  | cons c cs ih =>
    simp [List.dropWhile, h c (List.mem_cons_self _ _),
      ih (fun x hx => h x (List.mem_cons_of_mem _ hx))]

/-- When the first list is consumed entirely, `dropWhile` continues into
the second. -/
theorem dropWhile_append_of_eq_nil (p : Char → Bool) (x y : List Char)
    (h : x.dropWhile p = []) : (x ++ y).dropWhile p = y.dropWhile p := by
  induction x with
  | nil => rfl
  | cons c cs ih =>
    by_cases hc : p c = true
    · simp only [List.dropWhile, hc] at h
      simp only [List.cons_append, List.dropWhile, hc]
      exact ih h
    · simp only [List.dropWhile, hc] at h
      simp at h

/-- When the first list is not consumed entirely, `dropWhile` stops
inside it. -/
theorem dropWhile_append_of_ne_nil (p : Char → Bool) (x y : List Char)
    (h : x.dropWhile p ≠ []) : (x ++ y).dropWhile p = x.dropWhile p ++ y := by
  induction x with
  | nil => exact absurd rfl h
  | cons c cs ih =>
    by_cases hc : p c = true
    · simp only [List.dropWhile, hc] at h ⊢
      exact ih h
    · simp only [List.cons_append, List.dropWhile, hc]
      rfl

/-- Trimming ignores an all-whitespace suffix. -/
theorem jsTrim_append_ws (a w : String) (h : ∀ c ∈ w.data, jsIsWs c = true) :
    jsTrim (a ++ w) = jsTrim a := by
  cases a with | mk la =>
  cases w with | mk lw =>
  show String.mk (((((la ++ lw).dropWhile jsIsWs).reverse).dropWhile jsIsWs).reverse)
      = String.mk ((((la.dropWhile jsIsWs).reverse).dropWhile jsIsWs).reverse)
  congr 1
  by_cases hA : la.dropWhile jsIsWs = []
  · rw [dropWhile_append_of_eq_nil jsIsWs la lw hA, dropWhile_of_all jsIsWs lw h, hA]
  · rw [dropWhile_append_of_ne_nil jsIsWs la lw hA, List.reverse_append,
      dropWhile_append_of_eq_nil jsIsWs lw.reverse (la.dropWhile jsIsWs).reverse
        (dropWhile_of_all jsIsWs lw.reverse (fun c hc => h c (List.mem_reverse.mp hc)))]

/-- Fingerprints ignore trailing whitespace of the action text: the text
sits at the end of the joined `billNumber:actionDate:actionText` string,
so its trailing whitespace is exactly what `trim` strips. -/
theorem generateItemId_trailing_ws (billNumber actionDate t w : String)
    (h : ∀ c ∈ w.data, jsIsWs c = true) :
    generateItemId billNumber actionDate (t ++ w)
      = generateItemId billNumber actionDate t := by
  unfold generateItemId
  have e1 : jsToLower (billNumber ++ ":" ++ actionDate ++ ":" ++ (t ++ w))
      = jsToLower (billNumber ++ ":" ++ actionDate ++ ":" ++ t) ++ w := by
    rw [← strAppend_assoc (billNumber ++ ":" ++ actionDate ++ ":") t w,
      jsToLower_append (billNumber ++ ":" ++ actionDate ++ ":" ++ t) w, jsToLower_ws w h]
  rw [e1, jsTrim_append_ws _ w h]

/-! ## Claim C1 — cosmetic republication against a recorded seen-state -/

/-- C1, counterexample: the claim "re-observing a recorded row with action
text differing only in case is classified unchanged, emits no candidate
and leaves the seen-state entry unmodified" is false. After processing
`c1bd` (action "Referred to committee"), the seen-state records the row's
`itemId`; re-observing the case-variant "REFERRED TO COMMITTEE" (same
`itemId`) emits a fresh candidate and overwrites the entry, because the
content hash is computed over the unnormalized text. -/
theorem C1_counterexample :
    generateItemId "H.1" "2024-01-01" "Referred to committee"
        = generateItemId "H.1" "2024-01-01" "REFERRED TO COMMITTEE"
    ∧ seenGet c1seen (generateItemId "H.1" "2024-01-01" "REFERRED TO COMMITTEE") ≠ none
    ∧ (processBillHistory c1bdCased c1seen).1.map Item.action_text = ["REFERRED TO COMMITTEE"]
    ∧ (processBillHistory c1bdCased c1seen).2 ≠ c1seen := by
  refine ⟨generateItemId_congr _ _ _ _ (by decide), by decide, by decide, by decide⟩

/-- C1, amended: re-observing rows whose exact (byte-identical) action
text is already recorded under their fingerprint emits no candidate and
leaves the seen-state unmodified; cosmetic case/whitespace variation
changes the content hash and re-triggers processing (see the
counterexample). -/
theorem C1_unchanged_reobservation (billData : BillData) (seen : SeenMap)
    (h : ∀ row ∈ billData.historyRows,
        seenGet seen (rowFp billData row) = some (rowCh row)) :
    processBillHistory billData seen = ([], seen) :=
  processRows_settled billData billData.historyRows seen
    (fun row hr => Or.inl (h row hr))

/-- C1 witness: a concrete snapshot whose single row is recorded verbatim
in the seen-state is processed to no candidates with the state unchanged. -/
theorem C1_unchanged_reobservation_witness :
    (∀ row ∈ w1bd.historyRows, seenGet w1seen (rowFp w1bd row) = some (rowCh row))
    ∧ processBillHistory w1bd w1seen = ([], w1seen) := by
  have h : ∀ row ∈ w1bd.historyRows, seenGet w1seen (rowFp w1bd row) = some (rowCh row) := by
    decide
  exact ⟨h, C1_unchanged_reobservation w1bd w1seen h⟩

/-! ## Claim C2 — determinism and normalization of `generateItemId` -/

/-- C2, counterexample: two action texts that differ only in whitespace
(an internal double space) yield different `itemId`s, because only the
surrounding whitespace of the joined string is trimmed. -/
theorem C2_counterexample :
    generateItemId "H1" "2024-01-01" "Referred  to committee"
      ≠ generateItemId "H1" "2024-01-01" "Referred to committee" := by
  decide

/-- C2, amended: `generateItemId` is a pure function (deterministic by
construction); for every fixed identifier and date, the derived ids agree
across letter-case variation of the action text (first clause, universal)
and across trailing-whitespace variation of the action text (second
clause, universal); both concrete instances follow, including the spec's
H1 example. Internal or leading whitespace variation is not normalized
(see the counterexample). -/
theorem C2_fingerprint_determinism :
    (∀ billNumber actionDate t₁ t₂, jsToLower t₁ = jsToLower t₂ →
        generateItemId billNumber actionDate t₁ = generateItemId billNumber actionDate t₂)
    ∧ (∀ billNumber actionDate t w, (∀ c ∈ w.data, jsIsWs c = true) →
        generateItemId billNumber actionDate (t ++ w) = generateItemId billNumber actionDate t)
    ∧ generateItemId "H1" "2024-01-01" "Referred to committee"
        = generateItemId "H1" "2024-01-01" "REFERRED TO COMMITTEE"
    ∧ generateItemId "H1" "2024-01-01" "Referred to committee"
        = generateItemId "H1" "2024-01-01" "Referred to committee   " := by
  refine ⟨fun b d t₁ t₂ h => generateItemId_congr b d t₁ t₂ h,
    fun b d t w h => generateItemId_trailing_ws b d t w h,
    generateItemId_congr _ _ _ _ (by decide), ?_⟩
  have h4 : ("Referred to committee   " : String) = "Referred to committee" ++ "   " := by decide
  rw [h4]
  exact (generateItemId_trailing_ws "H1" "2024-01-01" "Referred to committee" "   "
    (by decide)).symm

/-- C2 witness: the case-folding clause and the trailing-whitespace
clause applied at concrete inputs. -/
theorem C2_fingerprint_determinism_witness :
    jsToLower "abc def" = jsToLower "ABC DEF"
    ∧ generateItemId "S5" "2025-02-02" "abc def" = generateItemId "S5" "2025-02-02" "ABC DEF"
    ∧ (∀ c ∈ (" " : String).data, jsIsWs c = true)
    ∧ generateItemId "S5" "2025-02-02" ("abc def" ++ " ")
        = generateItemId "S5" "2025-02-02" "abc def" :=
  ⟨by decide, C2_fingerprint_determinism.1 "S5" "2025-02-02" "abc def" "ABC DEF" (by decide),
   by decide, C2_fingerprint_determinism.2.1 "S5" "2025-02-02" "abc def" " " (by decide)⟩

/-! ## Claim C7 — seen-state set at acceptance; no automatic retry -/

/-- C7, counterexample: with two history rows sharing one fingerprint
(action texts "Enacted" and "Enacted ", identical after normalization but
with different content hashes), both rows are emitted, the second
overwrites the first's seen-state entry, and re-processing the identical
snapshot re-emits an item for the first row — so "re-processing the
identical snapshot yields zero new candidates for that item" fails. -/
theorem C7_counterexample :
    rowFp c7bd ⟨"2024-01-01", "House", "Enacted"⟩
        = rowFp c7bd ⟨"2024-01-01", "House", "Enacted "⟩
    ∧ (processBillHistory c7bd []).1.map Item.action_text = ["Enacted", "Enacted "]
    ∧ (processBillHistory c7bd c7seen).1.map Item.action_text = ["Enacted", "Enacted "] := by
  refine ⟨?_, by decide, by decide⟩
  show generateItemId "H.2" "2024-01-01" "Enacted" = generateItemId "H.2" "2024-01-01" "Enacted "
  unfold generateItemId
  have h : jsTrim (jsToLower ("H.2" ++ ":" ++ "2024-01-01" ++ ":" ++ "Enacted"))
      = jsTrim (jsToLower ("H.2" ++ ":" ++ "2024-01-01" ++ ":" ++ "Enacted ")) := by decide
  rw [h]

/-- C7, amended: provided no two history rows of the snapshot share a
fingerprint, every candidate emitted by `processBillHistory` has its
seen-state entry set to its content hash in the returned state (i.e. at
acceptance, before any downstream analysis, which runs only after
`processBillHistory` returns), and re-processing the identical snapshot
yields zero new candidates — failed downstream analysis is not retried. -/
theorem C7_seen_at_acceptance (billData : BillData) (seen : SeenMap)
    (hnodup : (billData.historyRows.map (rowFp billData)).Nodup) :
    (∀ it ∈ (processBillHistory billData seen).1,
        seenGet (processBillHistory billData seen).2 it.item_id = some it.raw_text_sha256)
    ∧ (processBillHistory billData (processBillHistory billData seen).2).1 = [] := by
  constructor
  · intro it hit
    obtain ⟨row, hr, heq, htrig⟩ := processRows_emitted billData billData.historyRows seen it hit
    rcases processRows_final billData billData.historyRows seen hnodup row hr with hfin | hfin
    · subst heq
      exact hfin
    · rw [htrig] at hfin
      cases hfin
  · have hset := processRows_final billData billData.historyRows seen hnodup
    have hdone := processRows_settled billData billData.historyRows
      (processRows billData billData.historyRows seen).2 hset
    simpa [processBillHistory] using congrArg Prod.fst hdone

/-- C7 witness: the no-retry clause at a concrete one-row snapshot with
(trivially) pairwise-distinct fingerprints. -/
theorem C7_seen_at_acceptance_witness :
    (w7bd.historyRows.map (rowFp w7bd)).Nodup
    ∧ (processBillHistory w7bd (processBillHistory w7bd []).2).1 = [] := by
  have hn : (w7bd.historyRows.map (rowFp w7bd)).Nodup := by decide
  exact ⟨hn, (C7_seen_at_acceptance w7bd [] hn).2⟩

/-! ## Claim C3 — decoded stage-2 responses -/

/-- C3: for every stage-2 engine response that is successfully received
and decoded, `checkRelevanceWithAI` passes the candidate iff the response
has `relevant` true and `confidence` "medium" or "high". -/
theorem C3_semantic_filter (env : ScrEnv) (billData : BillData) (r : Stage2Resp)
    (h : env.stage2 billData = .ok r) :
    checkRelevanceWithAI env billData = true ↔
      (r.relevant = true ∧ (r.confidence = "medium" ∨ r.confidence = "high")) := by
  unfold checkRelevanceWithAI
  rw [h]
  simp [Bool.and_eq_true, Bool.or_eq_true, beq_iff_eq]

/-- C3 witness: a decoded response with `relevant` true and `confidence`
"low" is rejected. -/
theorem C3_semantic_filter_witness :
    (scrEnvOf (.ok ⟨true, "low"⟩)).stage2 bd0 = .ok ⟨true, "low"⟩
    ∧ checkRelevanceWithAI (scrEnvOf (.ok ⟨true, "low"⟩)) bd0 = false := by
  refine ⟨rfl, ?_⟩
  have h := C3_semantic_filter (scrEnvOf (.ok ⟨true, "low"⟩)) bd0 ⟨true, "low"⟩ rfl
  cases hb : checkRelevanceWithAI (scrEnvOf (.ok ⟨true, "low"⟩)) bd0
  · rfl
  · exact absurd (h.mp hb) (by simp)

/-! ## Claim C4 — fail-open stage-2 filter -/

/-- C4: when the stage-2 engine call itself fails (throws, times out, or
its response cannot be decoded), `checkRelevanceWithAI` returns `true`;
and in the run pipeline such a candidate, having reached stage 2, is
counted as having passed the semantic filter and proceeds to full
analysis rather than being dropped. -/
theorem C4_fail_open (env : ScrEnv) (billNum : String) (billData : BillData)
    (html e : String)
    (hs2 : env.stage2 billData = .error e)
    (hfetch : env.fetchPage billNum = some html)
    (hparse : env.parsePage html = .ok billData)
    (hkw : matchesMunicipalKeywords
        (jsToLower (billData.title ++ " " ++ billData.currentStatus)) = true)
    (hgate : (!(hasChanges env.db billData).isNew
        && !(hasChanges env.db billData).hasUpdate) = false) :
    checkRelevanceWithAI env billData = true
    ∧ (processOneBill env billNum).2.passedAIFilter = 1 := by
  have hrel : checkRelevanceWithAI env billData = true := by
    unfold checkRelevanceWithAI
    rw [hs2]
  refine ⟨hrel, ?_⟩
  cases hsb : env.storeBill billData with
  | error e' => simp [processOneBill, hfetch, hparse, hkw, hgate, hrel, hsb]
  | ok billId =>
    cases han : env.analyze billData (env.fetchText billNum) with
    | error e' => simp [processOneBill, hfetch, hparse, hkw, hgate, hrel, hsb, han]
    | ok a =>
      cases hbr : env.storeBrief billId (env.fetchText billNum) a with
      | error e' => simp [processOneBill, hfetch, hparse, hkw, hgate, hrel, hsb, han, hbr]
      | ok u => simp [processOneBill, hfetch, hparse, hkw, hgate, hrel, hsb, han, hbr]

/-- C4 witness: a concrete candidate whose stage-2 call times out still
passes the semantic filter. -/
theorem C4_fail_open_witness :
    w4env.stage2 w4bd = .error "timeout"
    ∧ checkRelevanceWithAI w4env w4bd = true
    ∧ (processOneBill w4env "H.5").2.passedAIFilter = 1 := by
  have h := C4_fail_open w4env "H.5" w4bd "html" "timeout" rfl rfl rfl (by decide) (by decide)
  exact ⟨rfl, h.1, h.2⟩

/-! ## Claim C10 — database errors inside `hasChanges` are swallowed -/

/-- C10: if either database query inside `hasChanges` throws, the error
does not propagate: the bill is classified as new (`isNew` true, `billId`
null), so change detection never produces an error record. -/
theorem C10_db_error_swallowed (db : DBIface) (billData : BillData) :
    (∀ e, db.lookupBill billData.billNumber = .error e →
        hasChanges db billData = ⟨true, false, none⟩)
    ∧ (∀ billId e, db.lookupBill billData.billNumber = .ok (some billId) →
        checkRows db billId billData.historyRows = .error e →
        hasChanges db billData = ⟨true, false, none⟩) := by
  constructor
  · intro e h
    unfold hasChanges
    rw [h]
  · intro billId e h1 h2
    unfold hasChanges
    rw [h1]
    simp [h2]

/-- C10 witness: a database whose lookup throws yields
`{isNew: true, billId: null}`. -/
theorem C10_db_error_swallowed_witness :
    w10db.lookupBill bd0.billNumber = .error "connection refused"
    ∧ hasChanges w10db bd0 = ⟨true, false, none⟩ :=
  ⟨rfl, (C10_db_error_swallowed w10db bd0).1 "connection refused" rfl⟩

/-! ## Shape of one scraper candidate's effect trace -/

/-- Every possible effect trace of `processOneBill` is either empty,
a single failed keyword check, or starts with a passed keyword check;
and any full-analysis engine call in it analyzes exactly the parsed
snapshot. -/
theorem processOneBill_shape (env : ScrEnv) (billNum : String) :
    (processOneBill env billNum).1 = []
    ∨ (∃ text, (processOneBill env billNum).1 = [Ev.kwCheck text false])
    ∨ (∃ text rest, (processOneBill env billNum).1 = Ev.kwCheck text true :: rest
        ∧ ∀ bd billText, Ev.engineAnalysis bd billText ∈ rest →
            ∃ html, env.fetchPage billNum = some html ∧ env.parsePage html = .ok bd) := by
  rcases hf : env.fetchPage billNum with _ | html
  · left
    simp [processOneBill, hf]
  · rcases hp : env.parsePage html with e | billData
    · left
      simp [processOneBill, hf, hp]
    · by_cases hkw : matchesMunicipalKeywords
        (jsToLower (billData.title ++ " " ++ billData.currentStatus)) = true
      · right; right
        refine ⟨jsToLower (billData.title ++ " " ++ billData.currentStatus), ?_⟩
        by_cases hgate : (!(hasChanges env.db billData).isNew
            && !(hasChanges env.db billData).hasUpdate) = true
        · refine ⟨[], ?_, ?_⟩
          · simp [processOneBill, hf, hp, hkw, hgate]
          · intro bd billText hmem
            simp at hmem
        · by_cases hrel : checkRelevanceWithAI env billData = true
          · rcases hsb : env.storeBill billData with e | billId
            · refine ⟨[Ev.engineRelevance billData], ?_, ?_⟩
              · simp [processOneBill, hf, hp, hkw, hgate, hrel, hsb]
              · intro bd billText hmem
                simp at hmem
            · rcases han : env.analyze billData (env.fetchText billNum) with e | a
              · refine ⟨[Ev.engineRelevance billData,
                  Ev.engineAnalysis billData (env.fetchText billNum)], ?_, ?_⟩
                · simp [processOneBill, hf, hp, hkw, hgate, hrel, hsb, han]
                · intro bd billText hmem
                  simp at hmem
                  obtain ⟨h1, h2⟩ := hmem
                  subst h1
                  exact ⟨html, rfl, hp⟩
              · rcases hbr : env.storeBrief billId (env.fetchText billNum) a with e | u
                · refine ⟨[Ev.engineRelevance billData,
                    Ev.engineAnalysis billData (env.fetchText billNum)], ?_, ?_⟩
                  · simp [processOneBill, hf, hp, hkw, hgate, hrel, hsb, han, hbr]
                  · intro bd billText hmem
                    simp at hmem
                    obtain ⟨h1, h2⟩ := hmem
                    subst h1
                    exact ⟨html, rfl, hp⟩
                · refine ⟨[Ev.engineRelevance billData,
                    Ev.engineAnalysis billData (env.fetchText billNum), Ev.briefCreated], ?_, ?_⟩
                  · simp [processOneBill, hf, hp, hkw, hgate, hrel, hsb, han, hbr]
                  · intro bd billText hmem
                    simp at hmem
                    obtain ⟨h1, h2⟩ := hmem
                    subst h1
                    exact ⟨html, rfl, hp⟩
          · refine ⟨[Ev.engineRelevance billData], ?_, ?_⟩
            · simp [processOneBill, hf, hp, hkw, hgate, hrel]
            · intro bd billText hmem
              simp at hmem
      · right; left
        refine ⟨jsToLower (billData.title ++ " " ++ billData.currentStatus), ?_⟩
        simp [processOneBill, hf, hp, hkw]

/-! ## Claim C5 — whole-bill change detection -/

/-- Against an error-free database, the row loop of `hasChanges` reports
an update exactly when some snapshot row is absent from persisted
history. -/
theorem checkRows_dbOf (bills : List (String × Nat)) (hist : List (Nat × String × String))
    (billId : Nat) (rows : List HistoryRow) :
    checkRows (dbOf bills hist) billId rows
      = .ok (rows.any (fun row => !(decide ((billId, row.date, row.action) ∈ hist)))) := by
  induction rows with
  | nil => rfl
  | cons row rest ih =>
    have hl : (dbOf bills hist).lookupHistory billId row.date row.action
        = .ok (decide ((billId, row.date, row.action) ∈ hist)) := rfl
    by_cases h : (billId, row.date, row.action) ∈ hist
    · simp [checkRows, hl, h, ih]
    · simp [checkRows, hl, h]

/-- C5: for a bill already present in the bills table (and an error-free
database), `hasChanges` reports `isNew` false with the found id, and
`hasUpdate` true iff at least one snapshot history row is absent from
persisted `bill_history` under `(billId, actionDate, actionText)`; and in
whole-bill mode the full-analysis engine call always receives the whole
parsed snapshot (complete history), not a delta. -/
theorem C5_whole_bill_change_detection (bills : List (String × Nat))
    (hist : List (Nat × String × String)) (billData : BillData) (billId : Nat)
    (hfound : (dbOf bills hist).lookupBill billData.billNumber = .ok (some billId)) :
    ((hasChanges (dbOf bills hist) billData).isNew = false
      ∧ (hasChanges (dbOf bills hist) billData).billId = some billId
      ∧ ((hasChanges (dbOf bills hist) billData).hasUpdate = true ↔
          ∃ row ∈ billData.historyRows, (billId, row.date, row.action) ∉ hist))
    ∧ (∀ env billNum bd billText,
        Ev.engineAnalysis bd billText ∈ (processOneBill env billNum).1 →
        ∃ html, env.fetchPage billNum = some html ∧ env.parsePage html = .ok bd) := by
  constructor
  · have hres : hasChanges (dbOf bills hist) billData
        = ⟨false, billData.historyRows.any
            (fun row => !(decide ((billId, row.date, row.action) ∈ hist))), some billId⟩ := by
      unfold hasChanges
      rw [hfound]
      simp [checkRows_dbOf bills hist billId billData.historyRows]
    rw [hres]
    refine ⟨rfl, rfl, ?_⟩
    simp [List.any_eq_true]
  · intro env billNum bd billText hmem
    rcases processOneBill_shape env billNum with h0 | ⟨text, h1⟩ | ⟨text, rest, h2, hprop⟩
    · rw [h0] at hmem
      simp at hmem
    · rw [h1] at hmem
      simp at hmem
    · rw [h2] at hmem
      simp only [List.mem_cons] at hmem
      rcases hmem with h | h
      · simp at h
      · exact hprop bd billText h

/-- C5 witness: a one-row snapshot against a database holding the bill
but no history rows is reported as updated. -/
theorem C5_whole_bill_change_detection_witness :
    (dbOf [("H.1", 7)] []).lookupBill w5bd.billNumber = .ok (some 7)
    ∧ ((hasChanges (dbOf [("H.1", 7)] []) w5bd).hasUpdate = true ↔
        ∃ row ∈ w5bd.historyRows, (7, row.date, row.action) ∉ ([] : List (Nat × String × String))) := by
  have h := C5_whole_bill_change_detection [("H.1", 7)] [] w5bd 7 rfl
  exact ⟨rfl, h.1.2.2⟩

/-! ## Claim C6 — the lexical gate bounds engine calls -/

/-- C6: a fetched and parsed candidate whose combined title and status
matches no municipal keyword produces exactly one effect — the failed
stage-1 keyword check — so zero engine calls and zero briefs, while still
being counted as checked and found; and in every run, any engine call is
preceded by a passed stage-1 keyword check (the trace starts with it). -/
theorem C6_keyword_gate :
    (∀ (env : ScrEnv) (billNum html : String) (billData : BillData),
        env.fetchPage billNum = some html →
        env.parsePage html = .ok billData →
        matchesMunicipalKeywords
          (jsToLower (billData.title ++ " " ++ billData.currentStatus)) = false →
        processOneBill env billNum
          = ([Ev.kwCheck (jsToLower (billData.title ++ " " ++ billData.currentStatus)) false],
             ⟨1, 1, 0, 0, 0, 0, []⟩))
    ∧ (∀ (env : ScrEnv) (billNum : String) (ev : Ev),
        ev ∈ (processOneBill env billNum).1 → ev.isEngineCall = true →
        ∃ text rest, (processOneBill env billNum).1 = Ev.kwCheck text true :: rest) := by
  constructor
  · intro env billNum html billData hf hp hkw
    simp [processOneBill, hf, hp, hkw]
  · intro env billNum ev hev hcall
    rcases processOneBill_shape env billNum with h0 | ⟨text, h1⟩ | ⟨text, rest, h2, -⟩
    · rw [h0] at hev
      simp at hev
    · rw [h1] at hev
      simp at hev
      rw [hev] at hcall
      simp [Ev.isEngineCall] at hcall
    · exact ⟨text, rest, h2⟩

/-- C6 witness: a concrete candidate whose title and status contain no
municipal keyword makes zero engine calls and creates zero briefs. -/
theorem C6_keyword_gate_witness :
    w6env.fetchPage "H.6" = some "html"
    ∧ w6env.parsePage "html" = .ok w6bd
    ∧ matchesMunicipalKeywords (jsToLower (w6bd.title ++ " " ++ w6bd.currentStatus)) = false
    ∧ processOneBill w6env "H.6"
        = ([Ev.kwCheck (jsToLower (w6bd.title ++ " " ++ w6bd.currentStatus)) false],
           ⟨1, 1, 0, 0, 0, 0, []⟩) := by
  have hkw : matchesMunicipalKeywords (jsToLower (w6bd.title ++ " " ++ w6bd.currentStatus))
      = false := by decide
  exact ⟨rfl, rfl, hkw, C6_keyword_gate.1 w6env "H.6" "html" w6bd rfl rfl hkw⟩

/-! ## Claim C9 — Normalizer row filtering -/

/-- C9, counterexample: the claim names both `parseBillPage`
implementations, but the scraper's keeps a three-cell row whose date cell
is empty instead of dropping it; only server.js's drops it. -/
theorem C9_counterexample :
    scraperParseBillPageHistoryRows [["", "House", "Enacted"]] = [⟨"", "House", "Enacted"⟩]
    ∧ parseBillPageHistoryRows [["", "House", "Enacted"]] = [] := by
  exact ⟨rfl, rfl⟩

/-- C9, amended: server.js's `parseBillPage` includes a table row exactly
when it has at least three cells and both the trimmed date and trimmed
action text are non-empty, dropping other rows silently (the function is
total); the scraper's `parseBillPage` keeps every row with at least three
cells, with no emptiness check. -/
theorem C9_row_filtering :
    (∀ rows row, row ∈ parseBillPageHistoryRows rows →
        ¬(row.date = "") ∧ ¬(row.action = ""))
    ∧ (∀ (rows : List (List String)) (c0 c1 c2 : String) (cs : List String),
        (c0 :: c1 :: c2 :: cs) ∈ rows →
        ¬(jsTrim c0 = "") → ¬(jsTrim c2 = "") →
        (⟨jsTrim c0, jsTrim c1, jsTrim c2⟩ : HistoryRow) ∈ parseBillPageHistoryRows rows)
    ∧ (∀ (rows : List (List String)) (c0 c1 c2 : String) (cs : List String),
        (c0 :: c1 :: c2 :: cs) ∈ rows →
        (⟨jsTrim c0, jsTrim c1, jsTrim c2⟩ : HistoryRow) ∈ scraperParseBillPageHistoryRows rows) := by
  refine ⟨?_, ?_, ?_⟩
  · intro rows
    induction rows with
    | nil =>
      intro row hr
      simp [parseBillPageHistoryRows] at hr
    | cons cells rest ih =>
      intro row hr
      rcases cells with _ | ⟨c0, _ | ⟨c1, _ | ⟨c2, cs⟩⟩⟩
      · exact ih row (by simpa [parseBillPageHistoryRows] using hr)
      · exact ih row (by simpa [parseBillPageHistoryRows] using hr)
      · exact ih row (by simpa [parseBillPageHistoryRows] using hr)
      · simp only [parseBillPageHistoryRows] at hr
        by_cases hc : (!(jsTrim c0 == "") && !(jsTrim c2 == "")) = true
        · rw [if_pos hc] at hr
          simp only [List.mem_cons] at hr
          rcases hr with rfl | hr
          · simp only [Bool.and_eq_true, Bool.not_eq_true', beq_eq_false_iff_ne] at hc
            exact ⟨hc.1, hc.2⟩
          · exact ih row hr
        · rw [if_neg hc] at hr
          exact ih row hr
  · intro rows
    induction rows with
    | nil =>
      intro c0 c1 c2 cs hmem
      simp at hmem
    | cons cells rest ih =>
      intro c0 c1 c2 cs hmem h0 h2
      simp only [List.mem_cons] at hmem
      rcases hmem with rfl | hmem
      · have hc : (!(jsTrim c0 == "") && !(jsTrim c2 == "")) = true := by
          simp [Bool.and_eq_true, Bool.not_eq_true', beq_eq_false_iff_ne, h0, h2]
        simp only [parseBillPageHistoryRows, hc, if_true]
        exact List.mem_cons_self _ _
      · have hrec := ih c0 c1 c2 cs hmem h0 h2
        rcases cells with _ | ⟨d0, _ | ⟨d1, _ | ⟨d2, ds⟩⟩⟩
        · simpa [parseBillPageHistoryRows] using hrec
        · simpa [parseBillPageHistoryRows] using hrec
        · simpa [parseBillPageHistoryRows] using hrec
        · simp only [parseBillPageHistoryRows]
          split
          · exact List.mem_cons_of_mem _ hrec
          · exact hrec
  · intro rows
    induction rows with
    | nil =>
      intro c0 c1 c2 cs hmem
      simp at hmem
    | cons cells rest ih =>
      intro c0 c1 c2 cs hmem
      simp only [List.mem_cons] at hmem
      rcases hmem with rfl | hmem
      · simp only [scraperParseBillPageHistoryRows]
        exact List.mem_cons_self _ _
      · have hrec := ih c0 c1 c2 cs hmem
        rcases cells with _ | ⟨d0, _ | ⟨d1, _ | ⟨d2, ds⟩⟩⟩
        · simpa [scraperParseBillPageHistoryRows] using hrec
        · simpa [scraperParseBillPageHistoryRows] using hrec
        · simpa [scraperParseBillPageHistoryRows] using hrec
        · simp only [scraperParseBillPageHistoryRows]
          exact List.mem_cons_of_mem _ hrec

/-- C9 witness: a concrete well-formed row is kept by the server.js
Normalizer. -/
theorem C9_row_filtering_witness :
    ("1/1/2025" :: "House" :: "Referred to committee" :: []) ∈ [["1/1/2025", "House", "Referred to committee"]]
    ∧ ¬(jsTrim "1/1/2025" = "") ∧ ¬(jsTrim "Referred to committee" = "")
    ∧ (⟨jsTrim "1/1/2025", jsTrim "House", jsTrim "Referred to committee"⟩ : HistoryRow)
        ∈ parseBillPageHistoryRows [["1/1/2025", "House", "Referred to committee"]] := by
  refine ⟨by decide, by decide, by decide, ?_⟩
  exact C9_row_filtering.2.1 [["1/1/2025", "House", "Referred to committee"]]
    "1/1/2025" "House" "Referred to committee" [] (by decide) (by decide) (by decide)

/-! ## Claim C8 — failure isolation in the collect run -/

/-- One collect-loop iteration: a bill whose try block throws appends
exactly one error record naming it and leaves `billsProcessed` unchanged;
otherwise `billsProcessed` advances and only item-level records may be
appended. -/
theorem collectStep_cases (env : SrvEnv) (acc : CollectResults × SeenMap) (bn : String) :
    (billFails env bn = true
      ∧ ∃ e, (collectStep env acc bn).1.errors
            = acc.1.errors ++ [⟨"Failed to process bill: " ++ bn, e⟩]
        ∧ (collectStep env acc bn).1.billsProcessed = acc.1.billsProcessed)
    ∨ (billFails env bn = false
      ∧ ∃ tail, (collectStep env acc bn).1.errors = acc.1.errors ++ tail
        ∧ (collectStep env acc bn).1.billsProcessed = acc.1.billsProcessed + 1) := by
  rcases hf : env.fetchPage bn with e | html
  · left
    refine ⟨?_, e, ?_, ?_⟩
    · simp [billFails, hf]
    · simp [collectStep, hf]
    · simp [collectStep, hf]
  · rcases hp : env.parsePage html with e | parsed
    · left
      refine ⟨?_, e, ?_, ?_⟩
      · simp [billFails, hf, hp]
      · simp [collectStep, hf, hp]
      · simp [collectStep, hf, hp]
    · right
      refine ⟨by simp [billFails, hf, hp], ?_⟩
      rcases hpr : processBillHistory {parsed with billText := env.fetchText bn} acc.2 with
        ⟨newItems, seenOut⟩
      rcases har : analyzeItems env newItems with ⟨briefs, itemErrs⟩
      refine ⟨itemErrs, ?_, ?_⟩
      · simp [collectStep, hf, hp, hpr, har]
      · simp [collectStep, hf, hp, hpr, har]

/-- Folding the collect loop over any candidate list: `billsProcessed`
grows by the number of non-throwing candidates, errors are append-only,
and every throwing candidate contributes an error record naming it. -/
theorem collect_foldl (env : SrvEnv) (bns : List String) :
    ∀ acc : CollectResults × SeenMap,
      ((bns.foldl (collectStep env) acc).1.billsProcessed
        = acc.1.billsProcessed + (bns.filter (fun bn => !billFails env bn)).length)
      ∧ (∃ tail, (bns.foldl (collectStep env) acc).1.errors = acc.1.errors ++ tail)
      ∧ (∀ bn ∈ bns, billFails env bn = true →
          ∃ e, (⟨"Failed to process bill: " ++ bn, e⟩ : ErrRec)
            ∈ (bns.foldl (collectStep env) acc).1.errors) := by
  induction bns with
  | nil =>
    intro acc
    exact ⟨rfl, ⟨[], by simp⟩, by simp⟩
  | cons bn rest ih =>
    intro acc
    have hstep := collectStep_cases env acc bn
    have hrest := ih (collectStep env acc bn)
    refine ⟨?_, ?_, ?_⟩
    · rcases hstep with ⟨hfail, e, herr, hbp⟩ | ⟨hok, tail, herr, hbp⟩
      · rw [List.foldl_cons, hrest.1, hbp]
        simp [List.filter_cons, hfail]
      · rw [List.foldl_cons, hrest.1, hbp]
        simp [List.filter_cons, hok]
        omega
    · obtain ⟨tail2, htail2⟩ := hrest.2.1
      rcases hstep with ⟨hfail, e, herr, hbp⟩ | ⟨hok, tail, herr, hbp⟩
      · exact ⟨[⟨"Failed to process bill: " ++ bn, e⟩] ++ tail2,
          by rw [List.foldl_cons, htail2, herr, List.append_assoc]⟩
      · exact ⟨tail ++ tail2, by rw [List.foldl_cons, htail2, herr, List.append_assoc]⟩
    · intro bn' hbn' hfail'
      simp only [List.mem_cons] at hbn'
      rcases hbn' with rfl | hbn'
      · rcases hstep with ⟨hfail, e, herr, hbp⟩ | ⟨hok, tail, herr, hbp⟩
        · obtain ⟨tail2, htail2⟩ := hrest.2.1
          refine ⟨e, ?_⟩
          rw [List.foldl_cons, htail2, herr]
          simp
        · rw [hok] at hfail'
          cases hfail'
      · exact (ih (collectStep env acc bn)).2.2 bn' hbn' hfail'

/-- C8: every candidate's error is caught and recorded (with the
offending identifier in its message and the thrown message alongside)
while the remaining candidates are still processed; the run always
completes, and its `success` flag is true iff the error list is empty. -/
theorem C8_failure_isolation (env : SrvEnv) (billNumbers : List String) (seen0 : SeenMap) :
    ((collect env billNumbers seen0).1.success = true
      ↔ (collect env billNumbers seen0).1.errors = [])
    ∧ (collect env billNumbers seen0).1.billsProcessed
        = (billNumbers.filter (fun bn => !billFails env bn)).length
    ∧ (∀ bn ∈ billNumbers, billFails env bn = true →
        ∃ e, (⟨"Failed to process bill: " ++ bn, e⟩ : ErrRec)
          ∈ (collect env billNumbers seen0).1.errors) := by
  have hfold := collect_foldl env billNumbers (collectInit, seen0)
  refine ⟨?_, ?_, ?_⟩
  · show (billNumbers.foldl (collectStep env) (collectInit, seen0)).1.errors.isEmpty = true
      ↔ (billNumbers.foldl (collectStep env) (collectInit, seen0)).1.errors = []
    simp [List.isEmpty_iff]
  · show (billNumbers.foldl (collectStep env) (collectInit, seen0)).1.billsProcessed = _
    simpa [collectInit] using hfold.1
  · intro bn hbn hfail
    exact hfold.2.2 bn hbn hfail

/-- C8 witness: in a two-candidate run where the second candidate's fetch
throws, the failure is recorded against that candidate and the other
candidate is still processed. -/
theorem C8_failure_isolation_witness :
    "H.9" ∈ ["H.1", "H.9"]
    ∧ billFails w8env "H.9" = true
    ∧ (∃ e, (⟨"Failed to process bill: " ++ "H.9", e⟩ : ErrRec)
        ∈ (collect w8env ["H.1", "H.9"] []).1.errors)
    ∧ (collect w8env ["H.1", "H.9"] []).1.billsProcessed
        = (["H.1", "H.9"].filter (fun bn => !billFails w8env bn)).length := by
  have h := C8_failure_isolation w8env ["H.1", "H.9"] []
  exact ⟨by decide, rfl, h.2.2 "H.9" (by decide) rfl, h.2.1⟩

end StateAgg
